import Mathlib

/-!
Verification of the lightning-strike correlation engine (src/main.py).

The embedding below translates the decision logic of the script into Lean:

* Coordinates arrive as raw values that may fail numeric coercion; a raw
  value is `Option ℚ` (`none` models a value on which Python's float()
  raises ValueError/TypeError).
* Timestamps are modelled by `PyTime`: an integer instant `v` (seconds)
  plus an `aware` flag.  For a tz-aware pandas Timestamp, `v` is the UTC
  instant (pandas compares aware timestamps by instant, and tz_convert
  preserves the instant).  For a tz-naive timestamp, `v` is its wall-clock
  value; pd.Timestamp(x, tz=UTC) localizes it, producing the instant `v`.
  Python raises TypeError when a naive and an aware timestamp are
  compared, which the model tracks explicitly.
* Fallible Python code (IndexError on radii[0] of an empty list,
  TypeError on mixed naive/aware comparisons) is modelled with
  `Except String`.
-/

namespace LightningStrikes

/-- Timestamp of a strike or record: integer instant plus tz-awareness flag. -/
structure PyTime where
  v : ℤ
  aware : Bool
deriving DecidableEq, Repr

/-- Normalization to UTC performed at src/main.py:380-384 and 421-424: a
naive timestamp is localized as UTC (instant = wall value), an aware one is
converted to UTC (instant unchanged).  In both cases the UTC instant is `v`. -/
def to_utc (t : PyTime) : ℤ := t.v

/-- One row of sites_df: SiteName, Latitude, Longitude, facilityid
(src/main.py:500-504).  Raw coordinates may fail float() coercion. -/
structure Site where
  siteName : String
  lat? : Option ℚ
  lon? : Option ℚ
  facilityid : ℤ
deriving DecidableEq, Repr

/-- One row of strikes_df: Latitude, Longitude, Timestamp, PeakAmp
(src/main.py:506-513). -/
structure Strike where
  lat? : Option ℚ
  lon? : Option ℚ
  ts : PyTime
  peakAmp : ℤ
deriving DecidableEq, Repr

/-- The dict built at src/main.py:231-237 for a strike within radius. -/
structure MatchedStrike where
  latitude : ℚ
  longitude : ℚ
  timestamp : PyTime
  distance : ℚ
  peakamp : ℤ
deriving DecidableEq, Repr

/-- One work order from the API (src/main.py:326-337, 352-353): the fields
used by create_correlation_report.  createdDateTime is parsed with utc=True,
hence a UTC instant. -/
structure WorkOrder where
  facilityID : ℤ
  createdDateTime : ℤ
  woNumber : String
  assetName : String
  maintenanceType : String
  workOrderDesc : String
deriving DecidableEq, Repr

/-- validate_coordinates (src/main.py:149-158): float() both inputs
(`none` = coercion raised, caught and turned into False), then range-check
latitude in [-90, 90] and longitude in [-180, 180]. -/
def validate_coordinates (lat lon : Option ℚ) : Bool :=
  match lat, lon with
  | some lat_float, some lon_float =>
    decide (-90 ≤ lat_float ∧ lat_float ≤ 90 ∧ -180 ≤ lon_float ∧ lon_float ≤ 180)
  | _, _ => false

/-- C5: coordinate validation returns true iff both values coerce to numbers
in range; any coercion failure or out-of-range value yields false (the
function is total, so it never raises). -/
theorem validate_coordinates_iff (lat lon : Option ℚ) :
    validate_coordinates lat lon = true ↔
      ∃ la lo, lat = some la ∧ lon = some lo ∧
        -90 ≤ la ∧ la ≤ 90 ∧ -180 ≤ lo ∧ lo ≤ 180 := by
  cases lat with
  | none => simp [validate_coordinates]
  | some la =>
    cases lon with
    | none => simp [validate_coordinates]
    | some lo =>
      simp only [validate_coordinates, decide_eq_true_eq, Option.some.injEq]
      constructor
      · rintro ⟨h1, h2, h3, h4⟩
        exact ⟨la, lo, rfl, rfl, h1, h2, h3, h4⟩
      · rintro ⟨la', lo', hla, hlo, h1, h2, h3, h4⟩
        cases hla
        cases hlo
        exact ⟨h1, h2, h3, h4⟩

/-- Ordering relation used by Python's sorted(..., key=timestamp) once both
timestamps are of the same kind: pandas compares aware timestamps by instant
and naive ones by wall value, both of which are the `v` field here. -/
def tsLeP (a b : MatchedStrike) : Prop := a.timestamp.v ≤ b.timestamp.v

instance : DecidableRel tsLeP := fun a b =>
  inferInstanceAs (Decidable (a.timestamp.v ≤ b.timestamp.v))

instance : IsTotal MatchedStrike tsLeP :=
  ⟨fun a b => le_total a.timestamp.v b.timestamp.v⟩

instance : IsTrans MatchedStrike tsLeP :=
  ⟨fun _ _ _ h1 h2 => le_trans h1 h2⟩

/-- Uniform tz-awareness of a list of timestamps: all aware or all naive.
A comparison sort (or min) over a list containing both kinds must at some
point compare a naive with an aware timestamp, and pandas raises TypeError
on that comparison; over a uniform list every comparison succeeds. -/
def tsUniform (l : List PyTime) : Bool :=
  l.all (fun t => t.aware) || l.all (fun t => !t.aware)

/-- Model of sorted(strikes_in_radius, key=lambda x: x['timestamp']) at
src/main.py:243.  On a list mixing naive and aware timestamps the sort
raises TypeError; otherwise it is a stable sort by timestamp, which
insertionSort with the non-strict key order implements exactly. -/
def pySortMatched (l : List MatchedStrike) : Except String (List MatchedStrike) :=
  if tsUniform (l.map (fun m => m.timestamp)) then
    .ok (l.insertionSort tsLeP)
  else
    .error "TypeError: Cannot compare tz-naive and tz-aware timestamps"

/-- The fold implementing Python's min over a nonempty sequence: keeps the
first minimal element. -/
def minFold (a : PyTime) (ts : List PyTime) : PyTime :=
  ts.foldl (fun m x => if x.v < m.v then x else m) a

/-- Model of Python's min() over raw timestamps (src/main.py:420): keeps the
first minimal element, raising TypeError on a naive/aware comparison and
ValueError on an empty sequence. -/
def pyMinTime : List PyTime → Except String PyTime
  | [] => .error "ValueError: min() arg is an empty sequence"
  | t :: ts =>
    if tsUniform (t :: ts) then
      .ok (minFold t ts)
    else
      .error "TypeError: Cannot compare tz-naive and tz-aware timestamps"

/-- Body of the strike loop at src/main.py:219-240: coerce the strike's
coordinates (failure skips the row), validate them (invalid skips the row),
compute the distance and keep the strike iff distance <= radius.  The
distance engine (geopy geodesic) is an external primitive, passed in as the
function `dist site_lat site_lon strike_lat strike_lon`. -/
def strikes_in_radius (dist : ℚ → ℚ → ℚ → ℚ → ℚ) (site_lat site_lon : ℚ)
    (strikes : List Strike) (radius_miles : ℚ) : List MatchedStrike :=
  strikes.filterMap (fun s =>
    match s.lat?, s.lon? with
    | some strike_lat, some strike_lon =>
      if validate_coordinates (some strike_lat) (some strike_lon) then
        let d := dist site_lat site_lon strike_lat strike_lon
        if d ≤ radius_miles then
          some ⟨strike_lat, strike_lon, s.ts, d, s.peakAmp⟩
        else none
      else none
    | _, _ => none)

/-- get_strikes_for_site (src/main.py:200-243): returns [] when the site's
own coordinates fail coercion or validation; otherwise filters the strikes
to the radius and sorts them by timestamp (the sort raises on mixed
naive/aware timestamps, modelled by the Except). -/
def get_strikes_for_site (dist : ℚ → ℚ → ℚ → ℚ → ℚ) (site : Site)
    (strikes : List Strike) (radius_miles : ℚ) : Except String (List MatchedStrike) :=
  match site.lat?, site.lon? with
  | some site_lat, some site_lon =>
    if validate_coordinates (some site_lat) (some site_lon) then
      pySortMatched (strikes_in_radius dist site_lat site_lon strikes radius_miles)
    else .ok []
  | _, _ => .ok []

/-- Structured content of one site's block in the detailed report
(src/main.py:272-294): the summary row carries the site's fields and
len(strikes_1mi); the detail rows list the strikes of radii[0]. -/
structure DetailedEntry where
  site : Site
  count : ℕ
  strikes : List MatchedStrike
deriving DecidableEq, Repr

/-- The per-site loop of create_detailed_report (src/main.py:262-294): only
radii[0] is ever consulted; a site with no strikes within radii[0] is
skipped entirely.  An exception at any site aborts the run. -/
def detailedSites (dist : ℚ → ℚ → ℚ → ℚ → ℚ) (strikes : List Strike)
    (r0 : ℚ) : List Site → Except String (List DetailedEntry)
  | [] => .ok []
  | site :: rest =>
    match get_strikes_for_site dist site strikes r0 with
    | .error e => .error e
    | .ok strikes_1mi =>
      match detailedSites dist strikes r0 rest with
      | .error e => .error e
      | .ok tail =>
        if strikes_1mi = [] then .ok tail
        else .ok (⟨site, strikes_1mi.length, strikes_1mi⟩ :: tail)

/-- create_detailed_report (src/main.py:246-324): the header row evaluates
radii[0] (src/main.py:259), so an empty radii list raises IndexError before
any site is processed; afterwards only radii[0] is used.  The returned
sites_with_strikes equals the number of emitted entries. -/
def create_detailed_report (dist : ℚ → ℚ → ℚ → ℚ → ℚ) (sites : List Site)
    (strikes : List Strike) (radii : List ℚ) : Except String (List DetailedEntry) :=
  match radii with
  | [] => .error "IndexError: list index out of range"
  | r0 :: _ => detailedSites dist strikes r0 sites

/-- The noise phrase excluded from displayed work orders (src/main.py:432). -/
def exclPhrase : String := "Could not send Truck Unloading tags to "

/-- Check that the second list of characters occurs at the start of the
first one. -/
def charsStartWith : List Char → List Char → Bool
  | _, [] => true
  | [], _ :: _ => false
  | c :: cs, p :: ps => c == p && charsStartWith cs ps

/-- Check that the second list of characters occurs somewhere inside the
first one. -/
def charsContain : List Char → List Char → Bool
  | [], p => p.isEmpty
  | c :: cs, p => charsStartWith (c :: cs) p || charsContain cs p

/-- Model of Python's substring test `pat in s`. -/
def strContains (s pat : String) : Bool :=
  charsContain s.toList pat.toList

/-- Content-exclusion predicate applied to displayed work orders
(src/main.py:431-433). -/
def isExcludedOrder (wo : WorkOrder) : Bool :=
  strContains wo.workOrderDesc exclPhrase

/-- Lookback window length used at src/main.py:356: 14 days, with instants
measured in seconds. -/
def fourteenDays : ℤ := 14 * 86400

/-- Filtering of the work-order collection to the lookback window at
src/main.py:355-357: performed once on the whole collection, before the
per-site loop, with the single clock reading `now`. -/
def woWindow (now : ℤ) (work_orders : List WorkOrder) : List WorkOrder :=
  work_orders.filter (fun w => decide (now - fourteenDays ≤ w.createdDateTime))

/-- Same-facility restriction at src/main.py:374. -/
def sfRecs (site : Site) (recs : List WorkOrder) : List WorkOrder :=
  recs.filter (fun w => w.facilityID == site.facilityid)

/-- The per-strike match loop at src/main.py:379-390: a strike is kept iff
some same-facility in-window work order was created at or after the strike's
timestamp, the strike's timestamp being normalized to UTC first. -/
def matchedOf (all_strikes : List MatchedStrike) (recs : List WorkOrder) :
    List MatchedStrike :=
  all_strikes.filter (fun s =>
    recs.any (fun w => decide (to_utc s.timestamp ≤ w.createdDateTime)))

/-- Structured content of one site's block in the correlation report
(src/main.py:395-465): summary row with len(strikes_with_orders), the
matched strikes, and the displayed work-order rows. -/
structure CorrEntry where
  site : Site
  count : ℕ
  strikes : List MatchedStrike
  workOrders : List WorkOrder
deriving DecidableEq, Repr

/-- One iteration of the site loop of create_correlation_report
(src/main.py:369-465).  Returns none when the site is skipped (no strikes,
no same-facility records, or no matched strike); otherwise the earliest
matched strike is taken with Python's min over the raw timestamps
(src/main.py:420), normalized to UTC, and the displayed work orders are the
same-facility records created at or after it, minus the excluded ones. -/
def corrSite (dist : ℚ → ℚ → ℚ → ℚ → ℚ) (strikes : List Strike)
    (woF : List WorkOrder) (r0 : ℚ) (site : Site) :
    Except String (Option CorrEntry) :=
  match get_strikes_for_site dist site strikes r0 with
  | .error e => .error e
  | .ok all_strikes =>
    if all_strikes = [] then .ok none
    else if sfRecs site woF = [] then .ok none
    else if matchedOf all_strikes (sfRecs site woF) = [] then .ok none
    else
      match pyMinTime ((matchedOf all_strikes (sfRecs site woF)).map
          (fun s => s.timestamp)) with
      | .error e => .error e
      | .ok earliest_strike =>
        .ok (some ⟨site, (matchedOf all_strikes (sfRecs site woF)).length,
          matchedOf all_strikes (sfRecs site woF),
          ((sfRecs site woF).filter
            (fun w => decide (to_utc earliest_strike ≤ w.createdDateTime))).filter
            (fun w => !isExcludedOrder w)⟩)

/-- The site loop of create_correlation_report: sequential, an exception at
any site aborts the run; skipped sites contribute nothing. -/
def corrSites (dist : ℚ → ℚ → ℚ → ℚ → ℚ) (strikes : List Strike)
    (woF : List WorkOrder) (r0 : ℚ) : List Site → Except String (List CorrEntry)
  | [] => .ok []
  | site :: rest =>
    match corrSite dist strikes woF r0 site with
    | .error e => .error e
    | .ok entry? =>
      match corrSites dist strikes woF r0 rest with
      | .error e => .error e
      | .ok tail =>
        match entry? with
        | none => .ok tail
        | some entry => .ok (entry :: tail)

/-- create_correlation_report (src/main.py:339-495): the work-order
collection is filtered to the 14-day lookback window once, before the
per-site loop, using the single clock reading `now` taken at
src/main.py:356; the header row evaluates radii[0] (src/main.py:360), so an
empty radii list raises IndexError.  The returned sites_with_data equals
the number of emitted entries. -/
def create_correlation_report (dist : ℚ → ℚ → ℚ → ℚ → ℚ) (sites : List Site)
    (strikes : List Strike) (work_orders : List WorkOrder) (radii : List ℚ)
    (now : ℤ) : Except String (List CorrEntry) :=
  match radii with
  | [] => .error "IndexError: list index out of range"
  | r0 :: _ => corrSites dist strikes (woWindow now work_orders) r0 sites

/-! Concrete fixtures used by counterexamples and witnesses. -/

/-- Degenerate distance engine: everything at distance 0. -/
def dist0 : ℚ → ℚ → ℚ → ℚ → ℚ := fun _ _ _ _ => 0

/-- Distance engine for the tiering scenario: the site sits at latitude 0
and the reported distance is the strike's latitude. -/
def distLat : ℚ → ℚ → ℚ → ℚ → ℚ := fun _ _ strike_lat _ => strike_lat

def site0 : Site := ⟨"SiteA", some 0, some 0, 7⟩

def st1 : Strike := ⟨some 1, some 2, ⟨100, true⟩, 5⟩

def wo1 : WorkOrder := ⟨7, 1500000, "WO1", "A", "M", "desc"⟩

def m1 : MatchedStrike := ⟨1, 2, ⟨100, true⟩, 0, 5⟩

/-- Work order whose free text contains the excluded noise phrase. -/
def wo2 : WorkOrder :=
  ⟨7, 1500000, "WO2", "A", "M", "Could not send Truck Unloading tags to PLC7"⟩

/-- Strike at distance 0 from site0 under distLat. -/
def st05 : Strike := ⟨some 0, some 0, ⟨100, true⟩, 5⟩

/-- Strike three miles from site0 under distLat: inside 5 miles, outside
1 mile. -/
def st3 : Strike := ⟨some 3, some 0, ⟨200, true⟩, 6⟩

def m05 : MatchedStrike := ⟨0, 0, ⟨100, true⟩, 0, 5⟩

def m3 : MatchedStrike := ⟨3, 0, ⟨200, true⟩, 3, 6⟩

/-- Strike with a tz-naive timestamp. -/
def stN : Strike := ⟨some 1, some 2, ⟨100, false⟩, 5⟩

/-- Strike with a tz-aware timestamp. -/
def stA : Strike := ⟨some 3, some 4, ⟨50, true⟩, 6⟩

/-- Strike with a later timestamp than st1, listed first in the input. -/
def stB : Strike := ⟨some 1, some 2, ⟨200, true⟩, 9⟩

/-- Work order created before the 14-day lookback window. -/
def woOld : WorkOrder := ⟨7, 0, "WO0", "A", "M", "old"⟩

/-- The single correlation entry produced by the concrete scenario. -/
def corrE0 : CorrEntry := ⟨site0, 1, [m1], [wo1]⟩

open Real in
/-- Modelled from the spec: half-angle sum of the haversine formula, with
degree inputs converted to radians (the half difference in degrees times
pi over 360). -/
noncomputable def havTerm (lat1 lon1 lat2 lon2 : ℝ) : ℝ :=
  sin ((lat2 - lat1) * π / 360) ^ 2 +
    cos (lat1 * π / 180) * cos (lat2 * π / 180) *
      sin ((lon2 - lon1) * π / 360) ^ 2

open Real in
/-- Modelled from the spec: the DistanceEngine (§4.2) is geopy's geodesic, an
external dependency whose source is not part of this repository; §4.2 states
that any standard great-circle implementation, explicitly including
haversine on a sphere, is an acceptable model.  Angles are degrees, the
radius is the Earth's mean radius in miles, so the result is in miles. -/
noncomputable def haversineMiles (lat1 lon1 lat2 lon2 : ℝ) : ℝ :=
  2 * 3958.8 * arcsin (Real.sqrt (havTerm lat1 lon1 lat2 lon2))

/-- Two in-range coordinate pairs denote the same point of the sphere: equal,
or both at the same pole (where longitude is irrelevant), or equal latitude
with longitudes that differ by a full 360-degree wrap at the antimeridian. -/
def samePoint (lat1 lon1 lat2 lon2 : ℝ) : Prop :=
  lat1 = lat2 ∧
    (lat1 = 90 ∨ lat1 = -90 ∨ lon1 = lon2 ∨ lon2 - lon1 = 360 ∨ lon1 - lon2 = 360)

/-! Helper lemmas about the embedded operations. -/

/-- Propositional version of uniform tz-awareness of a list of matched
strikes. -/
def TsUniformP (l : List MatchedStrike) : Prop :=
  (∀ m ∈ l, m.timestamp.aware = true) ∨ (∀ m ∈ l, m.timestamp.aware = false)

theorem tsUniform_map_iff {l : List MatchedStrike} :
    tsUniform (l.map (fun m => m.timestamp)) = true ↔ TsUniformP l := by
  simp [tsUniform, TsUniformP, List.all_eq_true, Bool.not_eq_true']

theorem TsUniformP.subset {l l' : List MatchedStrike}
    (hsub : ∀ m ∈ l', m ∈ l) (h : TsUniformP l) : TsUniformP l' := by
  rcases h with h | h
  · exact Or.inl fun m hm => h m (hsub m hm)
  · exact Or.inr fun m hm => h m (hsub m hm)

theorem tsUniform_of_mem {l : List PyTime} (b : Bool)
    (h : ∀ t ∈ l, t.aware = b) : tsUniform l = true := by
  cases b
  · simp only [tsUniform, Bool.or_eq_true, List.all_eq_true]
    exact Or.inr fun t ht => by simp [h t ht]
  · simp only [tsUniform, Bool.or_eq_true, List.all_eq_true]
    exact Or.inl fun t ht => by simp [h t ht]

theorem minFold_spec : ∀ (ts : List PyTime) (a : PyTime),
    (minFold a ts = a ∨ minFold a ts ∈ ts) ∧
      (minFold a ts).v ≤ a.v ∧ ∀ x ∈ ts, (minFold a ts).v ≤ x.v := by
  intro ts
  induction ts with
  | nil => intro a; simp [minFold]
  | cons b bs ih =>
    intro a
    by_cases hb : b.v < a.v
    · have hstep : minFold a (b :: bs) = minFold b bs := by
        simp [minFold, List.foldl, hb]
      obtain ⟨hmem, hle, hall⟩ := ih b
      rw [hstep]
      refine ⟨?_, le_trans hle (le_of_lt hb), ?_⟩
      · rcases hmem with h | h
        · exact Or.inr (by simp [h])
        · exact Or.inr (List.mem_cons_of_mem _ h)
      · intro x hx
        rcases List.mem_cons.mp hx with h | h
        · subst h; exact hle
        · exact hall x h
    · have hstep : minFold a (b :: bs) = minFold a bs := by
        simp [minFold, List.foldl, hb]
      obtain ⟨hmem, hle, hall⟩ := ih a
      rw [hstep]
      refine ⟨?_, hle, ?_⟩
      · rcases hmem with h | h
        · exact Or.inl h
        · exact Or.inr (List.mem_cons_of_mem _ h)
      · intro x hx
        rcases List.mem_cons.mp hx with h | h
        · subst h; exact le_trans hle (le_of_not_lt hb)
        · exact hall x h

theorem pyMinTime_ok_spec {l : List PyTime} {t : PyTime}
    (h : pyMinTime l = .ok t) : t ∈ l ∧ ∀ x ∈ l, t.v ≤ x.v := by
  match l with
  | [] => simp [pyMinTime] at h
  | a :: ts =>
    rw [pyMinTime] at h
    by_cases hc : tsUniform (a :: ts) = true
    · rw [if_pos hc] at h
      have ht : t = minFold a ts := by
        have := h
        injection this with h'
        exact h'.symm
      obtain ⟨hmem, hle, hall⟩ := minFold_spec ts a
      subst ht
      constructor
      · rcases hmem with h' | h'
        · rw [h']; exact List.mem_cons_self a ts
        · exact List.mem_cons_of_mem _ h'
      · intro x hx
        rcases List.mem_cons.mp hx with h' | h'
        · subst h'; exact hle
        · exact hall x h'
    · rw [if_neg hc] at h
      exact absurd h (by simp)

theorem pyMinTime_isOk {l : List PyTime} (hne : l ≠ [])
    (hu : tsUniform l = true) : ∃ t, pyMinTime l = .ok t := by
  match l with
  | [] => exact absurd rfl hne
  | a :: ts => exact ⟨minFold a ts, by rw [pyMinTime, if_pos hu]⟩

/-- Stability of orderedInsert with respect to the timestamp key: inserting
an element only passes over strictly smaller keys, so the sublist of any
fixed key value gains the new element at the front iff it carries that key. -/
theorem filter_key_orderedInsert (x : MatchedStrike) (l : List MatchedStrike)
    (t : ℤ) :
    (List.orderedInsert tsLeP x l).filter (fun m => m.timestamp.v == t) =
      if x.timestamp.v = t then
        x :: l.filter (fun m => m.timestamp.v == t)
      else l.filter (fun m => m.timestamp.v == t) := by
  induction l with
  | nil =>
    by_cases hx : x.timestamp.v = t <;>
      simp [List.orderedInsert, List.filter_cons, hx]
  | cons y ys ih =>
    by_cases hxy : tsLeP x y
    · rw [List.orderedInsert, if_pos hxy]
      by_cases hx : x.timestamp.v = t <;>
        simp [List.filter_cons, hx]
    · rw [List.orderedInsert, if_neg hxy]
      have hylt : y.timestamp.v < x.timestamp.v := by
        simpa [tsLeP] using hxy
      by_cases hx : x.timestamp.v = t
      · have hyt : y.timestamp.v ≠ t := by omega
        simp [List.filter_cons, hx, hyt, ih]
      · simp only [List.filter_cons, ih, if_neg hx]

/-- Stability of the timestamp sort: for each key value, the elements
carrying it appear in the sorted output exactly in their input order. -/
theorem filter_key_insertionSort (l : List MatchedStrike) (t : ℤ) :
    (l.insertionSort tsLeP).filter (fun m => m.timestamp.v == t) =
      l.filter (fun m => m.timestamp.v == t) := by
  induction l with
  | nil => rfl
  | cons x xs ih =>
    rw [List.insertionSort, filter_key_orderedInsert, List.filter_cons]
    by_cases hx : x.timestamp.v = t
    · rw [if_pos hx, ih]
      simp [hx]
    · rw [if_neg hx, ih]
      simp [hx]

/-- Every matched strike inherits its timestamp from some input strike. -/
theorem strikes_in_radius_ts {dist : ℚ → ℚ → ℚ → ℚ → ℚ} {site_lat site_lon : ℚ}
    {strikes : List Strike} {radius : ℚ} {m : MatchedStrike}
    (hm : m ∈ strikes_in_radius dist site_lat site_lon strikes radius) :
    ∃ s ∈ strikes, m.timestamp = s.ts := by
  obtain ⟨s, hs, hsome⟩ := List.mem_filterMap.mp hm
  refine ⟨s, hs, ?_⟩
  cases hla : s.lat? with
  | none => rw [hla] at hsome; cases s.lon? <;> simp at hsome
  | some la =>
    cases hlo : s.lon? with
    | none => rw [hla, hlo] at hsome; simp at hsome
    | some lo =>
      rw [hla, hlo] at hsome
      dsimp only at hsome
      by_cases hv : validate_coordinates (some la) (some lo) = true
      · rw [if_pos hv] at hsome
        by_cases hd : dist site_lat site_lon la lo ≤ radius
        · rw [if_pos hd] at hsome
          cases hsome
          rfl
        · rw [if_neg hd] at hsome; simp at hsome
      · rw [if_neg hv] at hsome; simp at hsome

/-- When all input strikes carry the same tz-awareness, so does the filtered
list, and the sort in get_strikes_for_site succeeds. -/
theorem strikes_in_radius_uniform {dist : ℚ → ℚ → ℚ → ℚ → ℚ}
    {site_lat site_lon : ℚ} {strikes : List Strike} {radius : ℚ} {b : Bool}
    (hb : ∀ s ∈ strikes, s.ts.aware = b) :
    tsUniform ((strikes_in_radius dist site_lat site_lon strikes radius).map
      (fun m => m.timestamp)) = true := by
  apply tsUniform_of_mem b
  intro t ht
  obtain ⟨m, hm, hmt⟩ := List.mem_map.mp ht
  obtain ⟨s, hs, hts⟩ := strikes_in_radius_ts hm
  rw [← hmt, hts]
  exact hb s hs

/-- Any successful result of get_strikes_for_site has uniformly tz-aware (or
uniformly naive) timestamps: both empty-result branches are trivially
uniform, and the sorted branch requires uniformity to succeed. -/
theorem get_ok_uniform {dist : ℚ → ℚ → ℚ → ℚ → ℚ} {site : Site}
    {strikes : List Strike} {radius : ℚ} {L : List MatchedStrike}
    (h : get_strikes_for_site dist site strikes radius = .ok L) :
    TsUniformP L := by
  unfold get_strikes_for_site at h
  cases hla : site.lat? with
  | none =>
    rw [hla] at h
    cases site.lon? <;> · injection h with h'; subst h'; exact Or.inl (by simp)
  | some site_lat =>
    cases hlo : site.lon? with
    | none =>
      rw [hla, hlo] at h
      injection h with h'
      subst h'
      exact Or.inl (by simp)
    | some site_lon =>
      rw [hla, hlo] at h
      dsimp only at h
      by_cases hv : validate_coordinates (some site_lat) (some site_lon) = true
      · rw [if_pos hv] at h
        unfold pySortMatched at h
        by_cases hu : tsUniform ((strikes_in_radius dist site_lat site_lon
            strikes radius).map (fun m => m.timestamp)) = true
        · rw [if_pos hu] at h
          injection h with h'
          subst h'
          have hperm := List.perm_insertionSort tsLeP
            (strikes_in_radius dist site_lat site_lon strikes radius)
          exact TsUniformP.subset (fun m hm => hperm.subset hm)
            (tsUniform_map_iff.mp hu)
        · rw [if_neg hu] at h; exact absurd h (by simp)
      · rw [if_neg hv] at h
        injection h with h'
        subst h'
        exact Or.inl (by simp)

/-- get_strikes_for_site never raises when the input strikes carry uniform
tz-awareness. -/
theorem get_isOk (dist : ℚ → ℚ → ℚ → ℚ → ℚ) (site : Site)
    (strikes : List Strike) (radius : ℚ) {b : Bool}
    (hb : ∀ s ∈ strikes, s.ts.aware = b) :
    ∃ L, get_strikes_for_site dist site strikes radius = .ok L := by
  unfold get_strikes_for_site
  cases site.lat? with
  | none => exact ⟨[], rfl⟩
  | some site_lat =>
    cases site.lon? with
    | none => exact ⟨[], rfl⟩
    | some site_lon =>
      dsimp only
      by_cases hv : validate_coordinates (some site_lat) (some site_lon) = true
      · rw [if_pos hv]
        unfold pySortMatched
        rw [if_pos (strikes_in_radius_uniform hb)]
        exact ⟨_, rfl⟩
      · rw [if_neg hv]
        exact ⟨[], rfl⟩

/-- The entry emitted by corrSite carries the processed site. -/
theorem corrSite_site_eq {dist : ℚ → ℚ → ℚ → ℚ → ℚ} {strikes : List Strike}
    {woF : List WorkOrder} {r0 : ℚ} {site : Site} {e : CorrEntry}
    (h : corrSite dist strikes woF r0 site = .ok (some e)) : e.site = site := by
  unfold corrSite at h
  cases hg : get_strikes_for_site dist site strikes r0 with
  | error msg => rw [hg] at h; exact absurd h (by simp)
  | ok L =>
    rw [hg] at h
    dsimp only at h
    by_cases h1 : L = []
    · rw [if_pos h1] at h; exact absurd h (by simp)
    · rw [if_neg h1] at h
      by_cases h2 : sfRecs site woF = []
      · rw [if_pos h2] at h; exact absurd h (by simp)
      · rw [if_neg h2] at h
        by_cases h3 : matchedOf L (sfRecs site woF) = []
        · rw [if_pos h3] at h; exact absurd h (by simp)
        · rw [if_neg h3] at h
          cases hmin : pyMinTime ((matchedOf L (sfRecs site woF)).map
              (fun s => s.timestamp)) with
          | error msg => rw [hmin] at h; exact absurd h (by simp)
          | ok t =>
            rw [hmin] at h
            injection h with h'
            injection h' with h''
            rw [← h'']

/-- Full characterization of a successful, emitting run of corrSite. -/
theorem corrSite_char {dist : ℚ → ℚ → ℚ → ℚ → ℚ} {strikes : List Strike}
    {woF : List WorkOrder} {r0 : ℚ} {site : Site} {e : CorrEntry}
    {L : List MatchedStrike}
    (hL : get_strikes_for_site dist site strikes r0 = .ok L)
    (h : corrSite dist strikes woF r0 site = .ok (some e)) :
    sfRecs site woF ≠ [] ∧
      matchedOf L (sfRecs site woF) ≠ [] ∧
      e.site = site ∧
      e.strikes = matchedOf L (sfRecs site woF) ∧
      e.count = (matchedOf L (sfRecs site woF)).length ∧
      ∃ t, pyMinTime ((matchedOf L (sfRecs site woF)).map
          (fun s => s.timestamp)) = .ok t ∧
        e.workOrders = ((sfRecs site woF).filter
          (fun w => decide (to_utc t ≤ w.createdDateTime))).filter
          (fun w => !isExcludedOrder w) := by
  unfold corrSite at h
  rw [hL] at h
  dsimp only at h
  by_cases h1 : L = []
  · rw [if_pos h1] at h; exact absurd h (by simp)
  · rw [if_neg h1] at h
    by_cases h2 : sfRecs site woF = []
    · rw [if_pos h2] at h; exact absurd h (by simp)
    · rw [if_neg h2] at h
      by_cases h3 : matchedOf L (sfRecs site woF) = []
      · rw [if_pos h3] at h; exact absurd h (by simp)
      · rw [if_neg h3] at h
        cases hmin : pyMinTime ((matchedOf L (sfRecs site woF)).map
            (fun s => s.timestamp)) with
        | error msg => rw [hmin] at h; exact absurd h (by simp)
        | ok t =>
          rw [hmin] at h
          injection h with h'
          injection h' with h''
          subst h''
          exact ⟨h2, h3, rfl, rfl, rfl, t, rfl, rfl⟩

/-- Introduction rule: when the strike listing succeeded with uniform
timestamps, a nonempty same-facility record set and a nonempty matched set
produce an emitted entry. -/
theorem corrSite_intro {dist : ℚ → ℚ → ℚ → ℚ → ℚ} {strikes : List Strike}
    {woF : List WorkOrder} {r0 : ℚ} {site : Site} {L : List MatchedStrike}
    (hL : get_strikes_for_site dist site strikes r0 = .ok L)
    (h2 : sfRecs site woF ≠ []) (h3 : matchedOf L (sfRecs site woF) ≠ []) :
    ∃ e, corrSite dist strikes woF r0 site = .ok (some e) ∧ e.site = site := by
  have h1 : L ≠ [] := by
    intro hnil
    apply h3
    rw [hnil]
    rfl
  have hU : TsUniformP (matchedOf L (sfRecs site woF)) :=
    TsUniformP.subset (fun m hm => List.mem_of_mem_filter hm) (get_ok_uniform hL)
  have hUmap : tsUniform ((matchedOf L (sfRecs site woF)).map
      (fun m => m.timestamp)) = true := tsUniform_map_iff.mpr hU
  have hnemap : (matchedOf L (sfRecs site woF)).map
      (fun m => m.timestamp) ≠ [] := by
    simpa using h3
  obtain ⟨t, ht⟩ := pyMinTime_isOk hnemap hUmap
  refine ⟨⟨site, (matchedOf L (sfRecs site woF)).length,
    matchedOf L (sfRecs site woF),
    ((sfRecs site woF).filter
      (fun w => decide (to_utc t ≤ w.createdDateTime))).filter
      (fun w => !isExcludedOrder w)⟩, ?_, rfl⟩
  unfold corrSite
  rw [hL]
  dsimp only
  rw [if_neg h1, if_neg h2, if_neg h3, ht]

/-- corrSite never raises on uniformly tz-aware (or uniformly naive)
strike collections. -/
theorem corrSite_isOk (dist : ℚ → ℚ → ℚ → ℚ → ℚ) (strikes : List Strike)
    (woF : List WorkOrder) (r0 : ℚ) (site : Site) {b : Bool}
    (hb : ∀ s ∈ strikes, s.ts.aware = b) :
    ∃ r, corrSite dist strikes woF r0 site = .ok r := by
  obtain ⟨L, hL⟩ := get_isOk dist site strikes r0 hb
  by_cases h1 : L = []
  · exact ⟨none, by unfold corrSite; rw [hL]; dsimp only; rw [if_pos h1]⟩
  · by_cases h2 : sfRecs site woF = []
    · exact ⟨none, by unfold corrSite; rw [hL]; dsimp only; rw [if_neg h1, if_pos h2]⟩
    · by_cases h3 : matchedOf L (sfRecs site woF) = []
      · exact ⟨none, by
          unfold corrSite
          rw [hL]
          dsimp only
          rw [if_neg h1, if_neg h2, if_pos h3]⟩
      · obtain ⟨e, he, _⟩ := corrSite_intro hL h2 h3
        exact ⟨some e, he⟩

/-- Soundness of the site loop: every emitted entry comes from some input
site whose corrSite run emitted it. -/
theorem corrSites_src {dist : ℚ → ℚ → ℚ → ℚ → ℚ} {strikes : List Strike}
    {woF : List WorkOrder} {r0 : ℚ} {sites : List Site}
    {entries : List CorrEntry} {e : CorrEntry}
    (h : corrSites dist strikes woF r0 sites = .ok entries)
    (he : e ∈ entries) :
    ∃ site ∈ sites, corrSite dist strikes woF r0 site = .ok (some e) := by
  induction sites generalizing entries with
  | nil =>
    injection h with h'
    subst h'
    exact absurd he (by simp)
  | cons site rest ih =>
    rw [corrSites] at h
    cases hc : corrSite dist strikes woF r0 site with
    | error msg => rw [hc] at h; exact absurd h (by simp)
    | ok entry? =>
      rw [hc] at h
      cases hr : corrSites dist strikes woF r0 rest with
      | error msg => rw [hr] at h; exact absurd h (by simp)
      | ok tail =>
        rw [hr] at h
        cases entry? with
        | none =>
          injection h with h'
          subst h'
          obtain ⟨s, hs, hcs⟩ := ih hr he
          exact ⟨s, List.mem_cons_of_mem _ hs, hcs⟩
        | some entry =>
          injection h with h'
          subst h'
          rcases List.mem_cons.mp he with h' | h'
          · subst h'
            exact ⟨site, List.mem_cons_self _ _, hc⟩
          · obtain ⟨s, hs, hcs⟩ := ih hr h'
            exact ⟨s, List.mem_cons_of_mem _ hs, hcs⟩

/-- Completeness of the site loop: an input site whose corrSite run emits an
entry contributes it to the output. -/
theorem corrSites_mem {dist : ℚ → ℚ → ℚ → ℚ → ℚ} {strikes : List Strike}
    {woF : List WorkOrder} {r0 : ℚ} {sites : List Site}
    {entries : List CorrEntry} {site : Site} {e : CorrEntry}
    (h : corrSites dist strikes woF r0 sites = .ok entries)
    (hsite : site ∈ sites)
    (hc : corrSite dist strikes woF r0 site = .ok (some e)) :
    e ∈ entries := by
  induction sites generalizing entries with
  | nil => exact absurd hsite (by simp)
  | cons s rest ih =>
    rw [corrSites] at h
    cases hcs : corrSite dist strikes woF r0 s with
    | error msg => rw [hcs] at h; exact absurd h (by simp)
    | ok entry? =>
      rw [hcs] at h
      cases hr : corrSites dist strikes woF r0 rest with
      | error msg => rw [hr] at h; exact absurd h (by simp)
      | ok tail =>
        rw [hr] at h
        rcases List.mem_cons.mp hsite with hss | hss
        · subst hss
          rw [hc] at hcs
          injection hcs with h'
          subst h'
          injection h with h'
          subst h'
          exact List.mem_cons_self _ _
        · cases entry? with
          | none =>
            injection h with h'
            subst h'
            exact ih hr hss
          | some entry =>
            injection h with h'
            subst h'
            exact List.mem_cons_of_mem _ (ih hr hss)

/-- A successful run of the site loop means every individual site's corrSite
run succeeded. -/
theorem corrSites_site_ok {dist : ℚ → ℚ → ℚ → ℚ → ℚ} {strikes : List Strike}
    {woF : List WorkOrder} {r0 : ℚ} {sites : List Site}
    {entries : List CorrEntry} {site : Site}
    (h : corrSites dist strikes woF r0 sites = .ok entries)
    (hsite : site ∈ sites) :
    ∃ r, corrSite dist strikes woF r0 site = .ok r := by
  induction sites generalizing entries with
  | nil => exact absurd hsite (by simp)
  | cons s rest ih =>
    rw [corrSites] at h
    cases hcs : corrSite dist strikes woF r0 s with
    | error msg => rw [hcs] at h; exact absurd h (by simp)
    | ok entry? =>
      rw [hcs] at h
      cases hr : corrSites dist strikes woF r0 rest with
      | error msg => rw [hr] at h; exact absurd h (by simp)
      | ok tail =>
        rcases List.mem_cons.mp hsite with hss | hss
        · subst hss; exact ⟨entry?, hcs⟩
        · exact ih hr hss

/-! Claim theorems. -/

/-- C1: in correlation mode, a strike of the site's radii[0] listing is
counted as matched iff at least one work order with the site's facility
identifier and inside the lookback window has a creation timestamp at or
after the strike's (UTC-normalized) timestamp; a site with no same-facility
record or no matched strike is absent from the output entirely, and every
present entry carries exactly the matched strikes. -/
theorem correlation_match_iff_and_absence
    (dist : ℚ → ℚ → ℚ → ℚ → ℚ) (sites : List Site) (strikes : List Strike)
    (work_orders : List WorkOrder) (r0 : ℚ) (radiiRest : List ℚ) (now : ℤ)
    (entries : List CorrEntry) (site : Site) (L : List MatchedStrike)
    (hrun : create_correlation_report dist sites strikes work_orders
      (r0 :: radiiRest) now = .ok entries)
    (hsite : site ∈ sites)
    (hL : get_strikes_for_site dist site strikes r0 = .ok L) :
    ((∃ e ∈ entries, e.site = site) ↔
      (sfRecs site (woWindow now work_orders) ≠ [] ∧
        matchedOf L (sfRecs site (woWindow now work_orders)) ≠ [])) ∧
    (∀ e ∈ entries, e.site = site →
      e.strikes = matchedOf L (sfRecs site (woWindow now work_orders))) := by
  have hrun' : corrSites dist strikes (woWindow now work_orders) r0 sites =
      .ok entries := hrun
  constructor
  · constructor
    · rintro ⟨e, he, hesite⟩
      obtain ⟨s', _, hcs⟩ := corrSites_src hrun' he
      have hss : site = s' := by rw [← hesite]; exact corrSite_site_eq hcs
      subst hss
      obtain ⟨hc2, hc3, _⟩ := corrSite_char hL hcs
      exact ⟨hc2, hc3⟩
    · rintro ⟨h2, h3⟩
      obtain ⟨e, hce, hesite⟩ := corrSite_intro hL h2 h3
      exact ⟨e, corrSites_mem hrun' hsite hce, hesite⟩
  · intro e he hesite
    obtain ⟨s', _, hcs⟩ := corrSites_src hrun' he
    have hss : site = s' := by rw [← hesite]; exact corrSite_site_eq hcs
    subst hss
    obtain ⟨_, _, _, hstrikes, _⟩ := corrSite_char hL hcs
    exact hstrikes

/-- C2: every emitted correlation entry displays exactly the same-facility,
in-window work orders created at or after the earliest matched strike's
(UTC-normalized) timestamp, minus the orders matching the content-exclusion
phrase. -/
theorem correlation_displayed_orders
    (dist : ℚ → ℚ → ℚ → ℚ → ℚ) (sites : List Site) (strikes : List Strike)
    (work_orders : List WorkOrder) (r0 : ℚ) (radiiRest : List ℚ) (now : ℤ)
    (entries : List CorrEntry)
    (hrun : create_correlation_report dist sites strikes work_orders
      (r0 :: radiiRest) now = .ok entries) :
    ∀ e ∈ entries, ∃ m ∈ e.strikes,
      (∀ s ∈ e.strikes, m.timestamp.v ≤ s.timestamp.v) ∧
      e.workOrders = ((sfRecs e.site (woWindow now work_orders)).filter
        (fun w => decide (to_utc m.timestamp ≤ w.createdDateTime))).filter
        (fun w => !isExcludedOrder w) := by
  have hrun' : corrSites dist strikes (woWindow now work_orders) r0 sites =
      .ok entries := hrun
  intro e he
  obtain ⟨s', hs', hcs⟩ := corrSites_src hrun' he
  have hget : ∃ L, get_strikes_for_site dist s' strikes r0 = .ok L := by
    revert hcs
    unfold corrSite
    cases hg : get_strikes_for_site dist s' strikes r0 with
    | error msg => intro hcs; exact absurd hcs (by simp)
    | ok L => intro _; exact ⟨L, rfl⟩
  obtain ⟨L, hL⟩ := hget
  obtain ⟨_, _, hsiteEq, hstrikes, _, t, hmin, hwo⟩ := corrSite_char hL hcs
  obtain ⟨htmem, htmin⟩ := pyMinTime_ok_spec hmin
  obtain ⟨m, hm, hmt⟩ := List.mem_map.mp htmem
  refine ⟨m, ?_, ?_, ?_⟩
  · rw [hstrikes]; exact hm
  · intro s hs
    rw [hstrikes] at hs
    have := htmin s.timestamp (List.mem_map.mpr ⟨s, hs, rfl⟩)
    rw [hmt]
    exact this
  · rw [hwo, hsiteEq, hmt]

/-- C6: the lookback-window filter is a function of the single clock reading
`now`, applied once to the whole record collection before the per-site loop:
two runs over record collections whose once-filtered window sets coincide
produce identical output for every site. -/
theorem correlation_single_window
    (dist : ℚ → ℚ → ℚ → ℚ → ℚ) (sites : List Site) (strikes : List Strike)
    (radii : List ℚ) (wos1 wos2 : List WorkOrder) (now1 now2 : ℤ)
    (h : woWindow now1 wos1 = woWindow now2 wos2) :
    create_correlation_report dist sites strikes wos1 radii now1 =
      create_correlation_report dist sites strikes wos2 radii now2 := by
  unfold create_correlation_report
  rw [h]

/-- C8: an empty radii list is rejected at entry with a descriptive error
(the IndexError raised while building the header row, before any site is
processed), in both report generators. -/
theorem empty_radii_rejected
    (dist : ℚ → ℚ → ℚ → ℚ → ℚ) (sites : List Site) (strikes : List Strike)
    (work_orders : List WorkOrder) (now : ℤ) :
    create_detailed_report dist sites strikes [] =
      .error "IndexError: list index out of range" ∧
    create_correlation_report dist sites strikes work_orders [] now =
      .error "IndexError: list index out of range" :=
  ⟨rfl, rfl⟩

/-- C4: with a valid site coordinate, radius matching returns exactly the
valid-coordinate strikes within the radius, in timestamp order with ties in
input order (the per-key filter equality); with an invalid site coordinate
it returns the empty sequence. -/
theorem radius_match_characterization
    (dist : ℚ → ℚ → ℚ → ℚ → ℚ) (site : Site) (strikes : List Strike)
    (radius : ℚ) (hAware : ∀ s ∈ strikes, s.ts.aware = true) :
    (validate_coordinates site.lat? site.lon? = false →
      get_strikes_for_site dist site strikes radius = .ok []) ∧
    (∀ site_lat site_lon, site.lat? = some site_lat →
      site.lon? = some site_lon →
      validate_coordinates site.lat? site.lon? = true →
      ∃ out, get_strikes_for_site dist site strikes radius = .ok out ∧
        out.Perm (strikes_in_radius dist site_lat site_lon strikes radius) ∧
        List.Sorted tsLeP out ∧
        ∀ t : ℤ, out.filter (fun m => m.timestamp.v == t) =
          (strikes_in_radius dist site_lat site_lon strikes radius).filter
            (fun m => m.timestamp.v == t)) := by
  constructor
  · intro hv
    unfold get_strikes_for_site
    cases hla : site.lat? with
    | none => cases site.lon? <;> rfl
    | some la =>
      cases hlo : site.lon? with
      | none => rfl
      | some lo =>
        dsimp only
        rw [hla, hlo] at hv
        rw [hv]
        simp
  · intro site_lat site_lon hla hlo hv
    rw [hla, hlo] at hv
    unfold get_strikes_for_site
    rw [hla, hlo]
    dsimp only
    rw [if_pos hv]
    unfold pySortMatched
    rw [if_pos (strikes_in_radius_uniform hAware)]
    exact ⟨_, rfl, List.perm_insertionSort tsLeP _,
      List.sorted_insertionSort tsLeP _, fun t => filter_key_insertionSort _ t⟩

/-- C3 (code behavior at the claim's failing input): with radii [1, 5], the
detailed report consults only radii[0]; the strike three miles out is
geometrically within five miles (second conjunct) yet appears in no listing
and in no count of the report, which has no 5-mile tier at all. -/
theorem tiering_dropped_larger_radius :
    create_detailed_report distLat [site0] [st05, st3] [1, 5] =
      .ok [⟨site0, 1, [m05]⟩] ∧
    get_strikes_for_site distLat site0 [st05, st3] 5 = .ok [m05, m3] :=
  ⟨by rfl, by rfl⟩

/-- C10: an input on which the correlation report emits a site with a
non-empty matched-strike list and an empty displayed work-order list: the
only qualifying work order matches the content-exclusion phrase, which is
applied when building the display rows but not in the per-strike match
test. -/
theorem exclusion_only_in_display :
    create_correlation_report dist0 [site0] [st1] [wo2] [1] 2000000 =
      .ok [⟨site0, 1, [m1], []⟩] ∧ ([m1] : List MatchedStrike) ≠ [] :=
  ⟨rfl, by decide⟩

/-- C7 counterexample: a correlation run whose strike collection holds one
tz-naive and one tz-aware timestamp fails with a TypeError, because the
timestamp sort at src/main.py:243 (and the min at src/main.py:420) compares
raw timestamps before any UTC normalization; so a naive timestamp can cause
a failure, and not every timestamp comparison happens after normalization. -/
theorem naive_timestamp_failure :
    create_correlation_report dist0 [site0] [stN, stA] [wo1] [1] 2000000 =
      .error "TypeError: Cannot compare tz-naive and tz-aware timestamps" := by
  rfl

/-! Machinery for the amended C7: restamping a naive timestamp as an
explicit UTC-aware one with the same instant. -/

/-- Restamp a strike's timestamp as UTC-aware with the same instant. -/
def mkAware (s : Strike) : Strike :=
  ⟨s.lat?, s.lon?, ⟨s.ts.v, true⟩, s.peakAmp⟩

/-- Restamp a matched strike's timestamp as UTC-aware. -/
def awareM (m : MatchedStrike) : MatchedStrike :=
  ⟨m.latitude, m.longitude, ⟨m.timestamp.v, true⟩, m.distance, m.peakamp⟩

/-- Restamp every strike of a correlation entry as UTC-aware. -/
def awareEntry (e : CorrEntry) : CorrEntry :=
  ⟨e.site, e.count, e.strikes.map awareM, e.workOrders⟩

theorem strikes_in_radius_mkAware (dist : ℚ → ℚ → ℚ → ℚ → ℚ)
    (site_lat site_lon : ℚ) (strikes : List Strike) (radius : ℚ) :
    strikes_in_radius dist site_lat site_lon (strikes.map mkAware) radius =
      (strikes_in_radius dist site_lat site_lon strikes radius).map awareM := by
  unfold strikes_in_radius
  rw [List.filterMap_map, List.map_filterMap]
  congr 1
  funext s
  obtain ⟨sl?, so?, sts, samp⟩ := s
  cases sl? with
  | none => rfl
  | some la =>
    cases so? with
    | none => rfl
    | some lo =>
      dsimp only [Function.comp, mkAware]
      by_cases hv : validate_coordinates (some la) (some lo) = true
      · by_cases hd : dist site_lat site_lon la lo ≤ radius
        · simp [hv, hd, awareM]
        · simp [hv, hd]
      · simp [hv]

theorem orderedInsert_awareM (x : MatchedStrike) (l : List MatchedStrike) :
    (List.orderedInsert tsLeP x l).map awareM =
      List.orderedInsert tsLeP (awareM x) (l.map awareM) := by
  induction l with
  | nil => rfl
  | cons y ys ih =>
    have hiff : tsLeP (awareM x) (awareM y) ↔ tsLeP x y := Iff.rfl
    by_cases h : tsLeP x y
    · have hL2 : List.orderedInsert tsLeP x (y :: ys) = x :: y :: ys := by
        rw [List.orderedInsert, if_pos h]
      have hR2 : List.orderedInsert tsLeP (awareM x)
          (awareM y :: ys.map awareM) = awareM x :: awareM y :: ys.map awareM := by
        rw [List.orderedInsert, if_pos (hiff.mpr h)]
      rw [hL2, List.map_cons, List.map_cons, hR2]
    · have hL2 : List.orderedInsert tsLeP x (y :: ys) =
          y :: List.orderedInsert tsLeP x ys := by
        rw [List.orderedInsert, if_neg h]
      have hR2 : List.orderedInsert tsLeP (awareM x)
          (awareM y :: ys.map awareM) =
          awareM y :: List.orderedInsert tsLeP (awareM x) (ys.map awareM) := by
        rw [List.orderedInsert, if_neg (fun hc => h (hiff.mp hc))]
      rw [hL2, List.map_cons, List.map_cons, hR2, ih]

theorem insertionSort_awareM (l : List MatchedStrike) :
    (l.map awareM).insertionSort tsLeP = (l.insertionSort tsLeP).map awareM := by
  induction l with
  | nil => rfl
  | cons x xs ih =>
    rw [List.map_cons, List.insertionSort, List.insertionSort, ih,
      orderedInsert_awareM]

theorem get_mkAware {dist : ℚ → ℚ → ℚ → ℚ → ℚ} {site : Site}
    {strikes : List Strike} {radius : ℚ} {L : List MatchedStrike}
    (hN : ∀ s ∈ strikes, s.ts.aware = false)
    (hL : get_strikes_for_site dist site strikes radius = .ok L) :
    get_strikes_for_site dist site (strikes.map mkAware) radius =
      .ok (L.map awareM) := by
  unfold get_strikes_for_site at hL ⊢
  cases hla : site.lat? with
  | none =>
    rw [hla] at hL
    cases site.lon? <;> · injection hL with h'; subst h'; rfl
  | some site_lat =>
    cases hlo : site.lon? with
    | none =>
      rw [hla, hlo] at hL
      injection hL with h'
      subst h'
      rfl
    | some site_lon =>
      rw [hla, hlo] at hL
      dsimp only at hL ⊢
      by_cases hv : validate_coordinates (some site_lat) (some site_lon) = true
      · rw [if_pos hv] at hL ⊢
        rw [strikes_in_radius_mkAware]
        unfold pySortMatched at hL ⊢
        rw [if_pos (strikes_in_radius_uniform hN)] at hL
        injection hL with h'
        subst h'
        have hall : ∀ t ∈ ((strikes_in_radius dist site_lat site_lon strikes
            radius).map awareM).map (fun m => m.timestamp), t.aware = true := by
          intro t ht
          obtain ⟨m, hm, hmt⟩ := List.mem_map.mp ht
          obtain ⟨m', _, hm'⟩ := List.mem_map.mp hm
          rw [← hmt, ← hm']
          rfl
        rw [if_pos (tsUniform_of_mem true hall), insertionSort_awareM]
      · rw [if_neg hv] at hL ⊢
        injection hL with h'
        subst h'
        rfl

theorem matchedOf_awareM (L : List MatchedStrike) (recs : List WorkOrder) :
    matchedOf (L.map awareM) recs = (matchedOf L recs).map awareM := by
  unfold matchedOf
  rw [List.filter_map]
  rfl

theorem minFold_aware (ts : List PyTime) : ∀ (a : PyTime),
    minFold ⟨a.v, true⟩ (ts.map (fun t => ⟨t.v, true⟩)) =
      ⟨(minFold a ts).v, true⟩ := by
  induction ts with
  | nil => intro a; rfl
  | cons b bs ih =>
    intro a
    by_cases h : b.v < a.v
    · have h1 : minFold a (b :: bs) = minFold b bs := by
        simp [minFold, List.foldl, h]
      have h2 : minFold ⟨a.v, true⟩ ((b :: bs).map (fun t => ⟨t.v, true⟩)) =
          minFold ⟨b.v, true⟩ (bs.map (fun t => ⟨t.v, true⟩)) := by
        simp [minFold, List.foldl, h]
      rw [h1, h2, ih b]
    · have h1 : minFold a (b :: bs) = minFold a bs := by
        simp [minFold, List.foldl, h]
      have h2 : minFold ⟨a.v, true⟩ ((b :: bs).map (fun t => ⟨t.v, true⟩)) =
          minFold ⟨a.v, true⟩ (bs.map (fun t => ⟨t.v, true⟩)) := by
        simp [minFold, List.foldl, h]
      rw [h1, h2, ih a]

theorem pyMinTime_awareMap {l : List PyTime} {t : PyTime}
    (h : pyMinTime l = .ok t) :
    pyMinTime (l.map (fun x => ⟨x.v, true⟩)) = .ok ⟨t.v, true⟩ := by
  match l with
  | [] => simp [pyMinTime] at h
  | a :: ts =>
    rw [pyMinTime] at h
    by_cases hc : tsUniform (a :: ts) = true
    · rw [if_pos hc] at h
      injection h with h'
      subst h'
      rw [List.map_cons, pyMinTime]
      have hu : tsUniform ((⟨a.v, true⟩ : PyTime) ::
          ts.map (fun x => ⟨x.v, true⟩)) = true := by
        apply tsUniform_of_mem true
        intro x hx
        rcases List.mem_cons.mp hx with h' | h'
        · rw [h']
        · obtain ⟨y, _, hy⟩ := List.mem_map.mp h'
          rw [← hy]
      rw [if_pos hu, minFold_aware]
    · rw [if_neg hc] at h
      exact absurd h (by simp)

theorem corrSite_mkAware {dist : ℚ → ℚ → ℚ → ℚ → ℚ} {strikes : List Strike}
    {woF : List WorkOrder} {r0 : ℚ} {site : Site} {r : Option CorrEntry}
    (hN : ∀ s ∈ strikes, s.ts.aware = false)
    (h : corrSite dist strikes woF r0 site = .ok r) :
    corrSite dist (strikes.map mkAware) woF r0 site =
      .ok (r.map awareEntry) := by
  unfold corrSite at h ⊢
  cases hg : get_strikes_for_site dist site strikes r0 with
  | error msg => rw [hg] at h; exact absurd h (by simp)
  | ok L =>
    rw [hg] at h
    rw [get_mkAware hN hg]
    dsimp only at h ⊢
    by_cases h1 : L = []
    · rw [if_pos h1] at h
      rw [if_pos (by rw [h1]; rfl : L.map awareM = [])]
      injection h with h'
      subst h'
      rfl
    · rw [if_neg h1] at h
      rw [if_neg (fun hc => h1 (List.map_eq_nil_iff.mp hc))]
      by_cases h2 : sfRecs site woF = []
      · rw [if_pos h2] at h ⊢
        injection h with h'
        subst h'
        rfl
      · rw [if_neg h2] at h ⊢
        rw [matchedOf_awareM]
        by_cases h3 : matchedOf L (sfRecs site woF) = []
        · rw [if_pos h3] at h
          rw [if_pos (by rw [h3]; rfl :
            (matchedOf L (sfRecs site woF)).map awareM = [])]
          injection h with h'
          subst h'
          rfl
        · rw [if_neg h3] at h
          rw [if_neg (fun hc => h3 (List.map_eq_nil_iff.mp hc))]
          cases hmin : pyMinTime ((matchedOf L (sfRecs site woF)).map
              (fun s => s.timestamp)) with
          | error msg => rw [hmin] at h; exact absurd h (by simp)
          | ok t =>
            rw [hmin] at h
            injection h with h'
            subst h'
            have hmap : ((matchedOf L (sfRecs site woF)).map awareM).map
                (fun s => s.timestamp) =
                ((matchedOf L (sfRecs site woF)).map
                  (fun s => s.timestamp)).map (fun x => ⟨x.v, true⟩) := by
              rw [List.map_map, List.map_map]
              rfl
            rw [hmap, pyMinTime_awareMap hmin]
            simp only [Option.map_some]
            have hlen : ((matchedOf L (sfRecs site woF)).map awareM).length =
                (matchedOf L (sfRecs site woF)).length := List.length_map _ _
            rw [hlen]
            rfl

theorem corrSites_mkAware {dist : ℚ → ℚ → ℚ → ℚ → ℚ} {strikes : List Strike}
    {woF : List WorkOrder} {r0 : ℚ} {sites : List Site}
    {entries : List CorrEntry}
    (hN : ∀ s ∈ strikes, s.ts.aware = false)
    (h : corrSites dist strikes woF r0 sites = .ok entries) :
    corrSites dist (strikes.map mkAware) woF r0 sites =
      .ok (entries.map awareEntry) := by
  induction sites generalizing entries with
  | nil =>
    injection h with h'
    subst h'
    rfl
  | cons s rest ih =>
    rw [corrSites] at h ⊢
    cases hc : corrSite dist strikes woF r0 s with
    | error msg => rw [hc] at h; exact absurd h (by simp)
    | ok entry? =>
      rw [hc] at h
      rw [corrSite_mkAware hN hc]
      dsimp only at h ⊢
      cases hr : corrSites dist strikes woF r0 rest with
      | error msg => rw [hr] at h; exact absurd h (by simp)
      | ok tail =>
        rw [hr] at h
        rw [ih hr]
        cases entry? with
        | none =>
          injection h with h'
          subst h'
          rfl
        | some entry =>
          injection h with h'
          subst h'
          rfl

theorem corrSites_isOk (dist : ℚ → ℚ → ℚ → ℚ → ℚ) (strikes : List Strike)
    (woF : List WorkOrder) (r0 : ℚ) {b : Bool} (sites : List Site)
    (hb : ∀ s ∈ strikes, s.ts.aware = b) :
    ∃ es, corrSites dist strikes woF r0 sites = .ok es := by
  induction sites with
  | nil => exact ⟨[], rfl⟩
  | cons s rest ih =>
    obtain ⟨r, hr⟩ := corrSite_isOk dist strikes woF r0 s hb
    obtain ⟨es, hes⟩ := ih
    cases r with
    | none => exact ⟨es, by rw [corrSites, hr, hes]⟩
    | some e => exact ⟨e :: es, by rw [corrSites, hr, hes]⟩

/-- C7 (amended): a run whose strike timestamps are uniformly tz-naive never
fails, and produces exactly the result of the same run with every strike
restamped as explicit UTC-aware with the same instant: naive timestamps are
treated as UTC.  (As stated the claim is false: mixing naive and aware
timestamps fails in the pre-normalization sort, see the counterexample.) -/
theorem naive_treated_as_utc
    (dist : ℚ → ℚ → ℚ → ℚ → ℚ) (sites : List Site) (strikes : List Strike)
    (work_orders : List WorkOrder) (r0 : ℚ) (radiiRest : List ℚ) (now : ℤ)
    (hN : ∀ s ∈ strikes, s.ts.aware = false) :
    (∃ es, create_correlation_report dist sites strikes work_orders
      (r0 :: radiiRest) now = .ok es) ∧
    create_correlation_report dist sites (strikes.map mkAware) work_orders
        (r0 :: radiiRest) now =
      (create_correlation_report dist sites strikes work_orders
        (r0 :: radiiRest) now).map (List.map awareEntry) := by
  obtain ⟨es, hes⟩ := corrSites_isOk dist strikes
    (woWindow now work_orders) r0 sites hN
  have hes' : create_correlation_report dist sites strikes work_orders
      (r0 :: radiiRest) now = .ok es := hes
  refine ⟨⟨es, hes'⟩, ?_⟩
  have hmapped : create_correlation_report dist sites (strikes.map mkAware)
      work_orders (r0 :: radiiRest) now = .ok (es.map awareEntry) :=
    corrSites_mkAware hN hes
  rw [hmapped, hes']
  rfl

/-! Analysis of the spec-modelled great-circle distance. -/

open Real

theorem sin_deg_half_eq_zero_iff {a : ℝ} (h1 : -360 ≤ a) (h2 : a ≤ 360) :
    sin (a * π / 360) = 0 ↔ a = 0 ∨ a = 360 ∨ a = -360 := by
  constructor
  · intro h
    obtain ⟨n, hn⟩ := sin_eq_zero_iff.mp h
    have hpi : (0 : ℝ) < π := pi_pos
    have hane : a = 360 * n := by
      have hcancel : (360 * (n : ℝ)) * π = a * π := by
        linear_combination (360 : ℝ) * hn
      have := mul_right_cancel₀ (ne_of_gt hpi) hcancel
      linarith
    have hn1 : (-1 : ℝ) ≤ (n : ℝ) := by nlinarith
    have hn2 : (n : ℝ) ≤ 1 := by nlinarith
    have hn1' : (-1 : ℤ) ≤ n := by exact_mod_cast hn1
    have hn2' : n ≤ (1 : ℤ) := by exact_mod_cast hn2
    have hcases : n = -1 ∨ n = 0 ∨ n = 1 := by omega
    rcases hcases with h' | h' | h' <;> subst h'
    · right; right
      rw [hane]; norm_num
    · left
      rw [hane]; norm_num
    · right; left
      rw [hane]; norm_num
  · rintro (h | h | h) <;> subst h
    · norm_num
    · rw [show (360 : ℝ) * π / 360 = π by ring]
      exact sin_pi
    · rw [show (-360 : ℝ) * π / 360 = -π by ring, sin_neg, sin_pi, neg_zero]

theorem sin_lat_half_eq_zero_iff {a : ℝ} (h1 : -180 ≤ a) (h2 : a ≤ 180) :
    sin (a * π / 360) = 0 ↔ a = 0 := by
  constructor
  · intro h
    have hpi : (0 : ℝ) < π := pi_pos
    have hx1 : -π < a * π / 360 := by nlinarith
    have hx2 : a * π / 360 < π := by nlinarith
    have h0 := (sin_eq_zero_iff_of_lt_of_lt hx1 hx2).mp h
    have hcancel : a * π = 0 * π := by linear_combination (360 : ℝ) * h0
    have := mul_right_cancel₀ (ne_of_gt hpi) hcancel
    linarith
  · rintro rfl
    norm_num

theorem cos_deg_eq_zero_iff {a : ℝ} (h1 : -90 ≤ a) (h2 : a ≤ 90) :
    cos (a * π / 180) = 0 ↔ a = 90 ∨ a = -90 := by
  constructor
  · intro h
    by_contra hc
    push_neg at hc
    obtain ⟨h90, hm90⟩ := hc
    have ha1 : -90 < a := lt_of_le_of_ne h1 (Ne.symm hm90)
    have ha2 : a < 90 := lt_of_le_of_ne h2 h90
    have hpi : (0 : ℝ) < π := pi_pos
    have hx1 : -(π / 2) < a * π / 180 := by nlinarith
    have hx2 : a * π / 180 < π / 2 := by nlinarith
    have hpos := cos_pos_of_mem_Ioo ⟨hx1, hx2⟩
    rw [h] at hpos
    exact lt_irrefl 0 hpos
  · rintro (h | h) <;> subst h
    · rw [show (90 : ℝ) * π / 180 = π / 2 by ring]
      exact cos_pi_div_two
    · rw [show (-90 : ℝ) * π / 180 = -(π / 2) by ring, cos_neg]
      exact cos_pi_div_two

theorem cos_deg_nonneg {a : ℝ} (h1 : -90 ≤ a) (h2 : a ≤ 90) :
    0 ≤ cos (a * π / 180) := by
  apply cos_nonneg_of_mem_Icc
  have hpi : (0 : ℝ) < π := pi_pos
  constructor <;> nlinarith

theorem havTerm_nonneg {lat1 lon1 lat2 lon2 : ℝ}
    (ha1 : -90 ≤ lat1) (ha2 : lat1 ≤ 90) (hb1 : -90 ≤ lat2) (hb2 : lat2 ≤ 90) :
    0 ≤ havTerm lat1 lon1 lat2 lon2 :=
  add_nonneg (sq_nonneg _)
    (mul_nonneg (mul_nonneg (cos_deg_nonneg ha1 ha2) (cos_deg_nonneg hb1 hb2))
      (sq_nonneg _))

theorem havTerm_comm (lat1 lon1 lat2 lon2 : ℝ) :
    havTerm lat1 lon1 lat2 lon2 = havTerm lat2 lon2 lat1 lon1 := by
  unfold havTerm
  rw [show (lat1 - lat2) * π / 360 = -((lat2 - lat1) * π / 360) by ring,
    show (lon1 - lon2) * π / 360 = -((lon2 - lon1) * π / 360) by ring,
    sin_neg, sin_neg]
  ring

theorem havTerm_eq_zero_iff {lat1 lon1 lat2 lon2 : ℝ}
    (ha1 : -90 ≤ lat1) (ha2 : lat1 ≤ 90) (hb1 : -90 ≤ lat2) (hb2 : lat2 ≤ 90)
    (hc1 : -180 ≤ lon1) (hc2 : lon1 ≤ 180) (hd1 : -180 ≤ lon2) (hd2 : lon2 ≤ 180) :
    havTerm lat1 lon1 lat2 lon2 = 0 ↔ samePoint lat1 lon1 lat2 lon2 := by
  have hcos1 := cos_deg_nonneg ha1 ha2
  have hcos2 := cos_deg_nonneg hb1 hb2
  unfold havTerm
  rw [add_eq_zero_iff_of_nonneg (sq_nonneg _)
    (mul_nonneg (mul_nonneg hcos1 hcos2) (sq_nonneg _))]
  rw [pow_eq_zero_iff (two_ne_zero)]
  rw [sin_lat_half_eq_zero_iff (by linarith) (by linarith)]
  constructor
  · rintro ⟨hlat, hprod⟩
    have hlat' : lat1 = lat2 := by linarith
    rcases mul_eq_zero.mp hprod with hcc | hs
    · rcases mul_eq_zero.mp hcc with hc1' | hc2'
      · rcases (cos_deg_eq_zero_iff ha1 ha2).mp hc1' with h' | h'
        · exact ⟨hlat', Or.inl h'⟩
        · exact ⟨hlat', Or.inr (Or.inl h')⟩
      · rcases (cos_deg_eq_zero_iff hb1 hb2).mp hc2' with h' | h'
        · exact ⟨hlat', Or.inl (by linarith)⟩
        · exact ⟨hlat', Or.inr (Or.inl (by linarith))⟩
    · have hs0 : sin ((lon2 - lon1) * π / 360) = 0 :=
        pow_eq_zero_iff (two_ne_zero) |>.mp hs
      rcases (sin_deg_half_eq_zero_iff (by linarith) (by linarith)).mp hs0
        with h' | h' | h'
      · exact ⟨hlat', Or.inr (Or.inr (Or.inl (by linarith)))⟩
      · exact ⟨hlat', Or.inr (Or.inr (Or.inr (Or.inl h')))⟩
      · exact ⟨hlat', Or.inr (Or.inr (Or.inr (Or.inr (by linarith))))⟩
  · rintro ⟨hlat, hcase⟩
    refine ⟨by linarith, ?_⟩
    rcases hcase with h' | h' | h' | h' | h'
    · have : cos (lat1 * π / 180) = 0 :=
        (cos_deg_eq_zero_iff ha1 ha2).mpr (Or.inl h')
      rw [this]
      ring
    · have : cos (lat1 * π / 180) = 0 :=
        (cos_deg_eq_zero_iff ha1 ha2).mpr (Or.inr h')
      rw [this]
      ring
    · have : sin ((lon2 - lon1) * π / 360) = 0 :=
        (sin_deg_half_eq_zero_iff (by linarith) (by linarith)).mpr
          (Or.inl (by linarith))
      rw [this]
      ring
    · have : sin ((lon2 - lon1) * π / 360) = 0 :=
        (sin_deg_half_eq_zero_iff (by linarith) (by linarith)).mpr
          (Or.inr (Or.inl h'))
      rw [this]
      ring
    · have : sin ((lon2 - lon1) * π / 360) = 0 :=
        (sin_deg_half_eq_zero_iff (by linarith) (by linarith)).mpr
          (Or.inr (Or.inr (by linarith)))
      rw [this]
      ring

theorem haversineMiles_eq_zero_iff_havTerm {lat1 lon1 lat2 lon2 : ℝ}
    (ha1 : -90 ≤ lat1) (ha2 : lat1 ≤ 90) (hb1 : -90 ≤ lat2) (hb2 : lat2 ≤ 90) :
    haversineMiles lat1 lon1 lat2 lon2 = 0 ↔
      havTerm lat1 lon1 lat2 lon2 = 0 := by
  unfold haversineMiles
  constructor
  · intro h
    rcases mul_eq_zero.mp h with h' | h'
    · norm_num at h'
    · have hs := arcsin_eq_zero_iff.mp h'
      exact (Real.sqrt_eq_zero (havTerm_nonneg ha1 ha2 hb1 hb2)).mp hs
  · intro h
    rw [h, Real.sqrt_zero, arcsin_zero, mul_zero]

/-- C9 counterexample: at the north pole the two coordinate pairs (90, 0)
and (90, 50) are distinct yet at great-circle distance exactly zero, so
"distance zero iff the pairs are equal" fails. -/
theorem distance_zero_at_pole :
    haversineMiles 90 0 90 50 = 0 ∧
      ((90 : ℝ), (0 : ℝ)) ≠ ((90 : ℝ), (50 : ℝ)) := by
  constructor
  · rw [haversineMiles_eq_zero_iff_havTerm (by norm_num) (by norm_num)
      (by norm_num) (by norm_num)]
    unfold havTerm
    rw [show ((90 : ℝ) - 90) * π / 360 = 0 by ring,
      show (90 : ℝ) * π / 180 = π / 2 by ring, sin_zero, cos_pi_div_two]
    ring
  · intro h
    have := congrArg Prod.snd h
    norm_num at this

/-- C9 (amended): the spec-modelled great-circle distance is symmetric, and
is zero iff the two coordinate pairs denote the same point of the sphere
(equal, or both at the same pole, or a 360-degree longitude wrap at the
antimeridian) — not iff the pairs are equal. -/
theorem distance_symm_and_zero_iff
    (lat1 lon1 lat2 lon2 : ℝ)
    (ha1 : -90 ≤ lat1) (ha2 : lat1 ≤ 90) (hb1 : -90 ≤ lat2) (hb2 : lat2 ≤ 90)
    (hc1 : -180 ≤ lon1) (hc2 : lon1 ≤ 180) (hd1 : -180 ≤ lon2) (hd2 : lon2 ≤ 180) :
    haversineMiles lat1 lon1 lat2 lon2 = haversineMiles lat2 lon2 lat1 lon1 ∧
      (haversineMiles lat1 lon1 lat2 lon2 = 0 ↔
        samePoint lat1 lon1 lat2 lon2) := by
  constructor
  · unfold haversineMiles
    rw [havTerm_comm]
  · rw [haversineMiles_eq_zero_iff_havTerm ha1 ha2 hb1 hb2]
    exact havTerm_eq_zero_iff ha1 ha2 hb1 hb2 hc1 hc2 hd1 hd2

/-! Witnesses: the claim theorems with hypotheses, applied at concrete
inputs. -/

theorem correlation_match_iff_and_absence_witness :
    ((∃ e ∈ [corrE0], e.site = site0) ↔
      (sfRecs site0 (woWindow 2000000 [wo1]) ≠ [] ∧
        matchedOf [m1] (sfRecs site0 (woWindow 2000000 [wo1])) ≠ [])) ∧
    (∀ e ∈ [corrE0], e.site = site0 →
      e.strikes = matchedOf [m1] (sfRecs site0 (woWindow 2000000 [wo1]))) :=
  correlation_match_iff_and_absence dist0 [site0] [st1] [wo1] 1 [] 2000000
    [corrE0] site0 [m1] (by rfl) (by simp) (by rfl)

theorem correlation_displayed_orders_witness :
    ∃ m ∈ corrE0.strikes,
      (∀ s ∈ corrE0.strikes, m.timestamp.v ≤ s.timestamp.v) ∧
      corrE0.workOrders = ((sfRecs corrE0.site (woWindow 2000000 [wo1])).filter
        (fun w => decide (to_utc m.timestamp ≤ w.createdDateTime))).filter
        (fun w => !isExcludedOrder w) :=
  correlation_displayed_orders dist0 [site0] [st1] [wo1] 1 [] 2000000 [corrE0]
    (by rfl) corrE0 (by simp)

theorem correlation_single_window_witness :
    create_correlation_report dist0 [site0] [st1] [wo1, woOld] [1] 2000000 =
      create_correlation_report dist0 [site0] [st1] [wo1] [1] 2000000 :=
  correlation_single_window dist0 [site0] [st1] [1] [wo1, woOld] [wo1]
    2000000 2000000 (by rfl)

theorem radius_match_characterization_witness :
    ∃ out, get_strikes_for_site dist0 site0 [stB, st1] 1 = .ok out ∧
      out.Perm (strikes_in_radius dist0 0 0 [stB, st1] 1) ∧
      List.Sorted tsLeP out ∧
      ∀ t : ℤ, out.filter (fun m => m.timestamp.v == t) =
        (strikes_in_radius dist0 0 0 [stB, st1] 1).filter
          (fun m => m.timestamp.v == t) :=
  (radius_match_characterization dist0 site0 [stB, st1] 1 (by decide)).2
    0 0 rfl rfl (by decide)

theorem naive_treated_as_utc_witness :
    (∃ es, create_correlation_report dist0 [site0] [stN] [wo1] [1] 2000000 =
      .ok es) ∧
    create_correlation_report dist0 [site0] ([stN].map mkAware) [wo1] [1]
        2000000 =
      (create_correlation_report dist0 [site0] [stN] [wo1] [1] 2000000).map
        (List.map awareEntry) :=
  naive_treated_as_utc dist0 [site0] [stN] [wo1] 1 [] 2000000 (by decide)

theorem distance_symm_and_zero_iff_witness :
    haversineMiles 30 (-95) 45 10 = haversineMiles 45 10 30 (-95) ∧
      (haversineMiles 30 (-95) 45 10 = 0 ↔ samePoint 30 (-95) 45 10) :=
  distance_symm_and_zero_iff 30 (-95) 45 10 (by norm_num) (by norm_num)
    (by norm_num) (by norm_num) (by norm_num) (by norm_num) (by norm_num)
    (by norm_num)

end LightningStrikes
